import Mathlib

/-!
Verification of the loan classification engine of the essa-admin repository.

The definitions below are a shallow embedding of the TypeScript source:
`src/app/admin/dashboard.tsx` (helpers `toMillis`, `computeEndDate`,
`normalizeStatus`, the derived view slices and totals, the late-fee
derivation, and the payment recording flow), together with the logically
identical copies in `src/app/api/admin/overview-data/route.ts` and
`src/unnamed/part_009`.

JavaScript values consumed by the timestamp helpers are modelled by the
inductive type `JSValue`; finite JS numbers are represented as rationals,
the non-finite numbers NaN and the two infinities as separate
constructors.  A possibly-throwing `toDate()` method is modelled as an
`Except` value, so that the `try { ... } catch {}` wrapper of the source
is visible in the embedding.  `Date.parse` is platform defined and is
modelled as an explicit function parameter `String → Option Int`
(`none` standing for NaN).
-/

namespace Essa

/-- One JS day in milliseconds (`24*60*60*1000`). -/
def dayMs : Int := 86400000

/-- Model of the JavaScript values reaching the timestamp helpers.
`tsObj` is an object exposing a zero-argument `toDate()` method (which may
throw, hence `Except`) and possibly a numeric `seconds` field; `secObj`
is an object with a numeric `seconds` field only; `objOther` is any other
object. -/
inductive JSValue where
  | undef
  | nullv
  | boolean (b : Bool)
  | num (q : ℚ)
  | nan
  | posInf
  | negInf
  | str (s : String)
  | date (ms : Int)
  | tsObj (toDateRes : Except Unit Int) (seconds : Option ℚ)
  | secObj (seconds : ℚ)
  | objOther

/-- JS falsiness: `undefined`, `null`, `false`, `0`, `NaN`, `""`. -/
def jsFalsy : JSValue → Bool
  | .undef => true
  | .nullv => true
  | .boolean b => !b
  | .num q => q == 0
  | .nan => true
  | .str s => s == ""
  | _ => false

/-- JS `Math.round` (half rounds toward plus infinity): `⌊q + 1/2⌋`. -/
def jsRound (q : ℚ) : Int := ⌊q + 1 / 2⌋

/-- The body of `toMillis` (dashboard.tsx:100-110) inside the `try`:
the ordered attempts of the source, with a thrown `toDate()` propagating
as an `Except.error`.  `dateParse` models the platform `Date.parse`
(`none` = NaN). -/
def toMillisTry (dateParse : String → Option Int) (v : JSValue) :
    Except Unit (Option ℚ) :=
  if jsFalsy v then .ok none
  else
    match v with
    | .date ms => .ok (some (ms : ℚ))
    | .num q => .ok (some q)
    | .nan => .ok none
    | .posInf => .ok none
    | .negInf => .ok none
    | .str s => .ok ((dateParse s).map (fun n => (n : ℚ)))
    | .tsObj r _ =>
        match r with
        | .ok ms => .ok (some (ms : ℚ))
        | .error e => .error e
    | .secObj secs => .ok (some ((jsRound (secs * 1000) : ℤ) : ℚ))
    | _ => .ok none

/-- `toMillis` (dashboard.tsx:100-110): the `try` body with the
`catch {} return null` wrapper. -/
def toMillis (dateParse : String → Option Int) (v : JSValue) : Option ℚ :=
  match toMillisTry dateParse v with
  | .ok r => r
  | .error _ => none

/-- The shapes the source recognizes: dates, numbers, strings, objects
with `toDate()`, and objects with a numeric `seconds` field. -/
def recognizedShape : JSValue → Bool
  | .date _ => true
  | .num _ => true
  | .nan => true
  | .posInf => true
  | .negInf => true
  | .str _ => true
  | .tsObj _ _ => true
  | .secObj _ => true
  | _ => false

/-- A concrete stand-in for the platform `Date.parse` that accepts
nothing; used by closed witness statements. -/
def dateParse0 : String → Option Int := fun _ => none

/-- JS `s || "pending"` for `s : string | undefined`. -/
def jsOrPending (s : Option String) : String :=
  match s with
  | none => "pending"
  | some t => if t == "" then "pending" else t

/-- JS `toLowerCase`, character by character. -/
def jsToLower (s : String) : String := String.mk (s.data.map Char.toLower)

/-- `normalizeStatus` (dashboard.tsx:140): default falsy input to
`"pending"`, lower-case, collapse finished/complete/completed to
`"closed"`. -/
def normalizeStatus (s : Option String) : String :=
  let k := jsToLower (jsOrPending s)
  if k == "finished" || k == "complete" || k == "completed" then "closed"
  else k

/-- `paymentFrequency` enum. -/
inductive Freq where
  | weekly
  | monthly
deriving DecidableEq

/-- Truncation toward zero, as applied by `new Date(ms)` to a
fractional millisecond argument. -/
def ratTrunc (q : ℚ) : Int := if 0 ≤ q then ⌊q⌋ else ⌈q⌉

/-- Day number (days since 1970-01-01) to proleptic-Gregorian
`(year, month, day)`, month `1..12`, as the platform date object
exposes its fields.  All divisions are floor divisions. -/
def civilFromDays (z : Int) : Int × Int × Int :=
  let z1 := z + 719468
  let era := z1 / 146097
  let doe := z1 % 146097
  let yoe := (doe - doe / 1460 + doe / 36524 - doe / 146096 ) / 365
  let y := yoe + era * 400
  let doy := doe - (365 * yoe + yoe / 4 - yoe / 100)
  let mp := (5 * doy + 2) / 153
  let d := doy - (153 * mp + 2) / 5 + 1
  let m := mp + (if mp < 10 then 3 else -9)
  (if m ≤ 2 then y + 1 else y, m, d)

/-- `(year, month, day)` back to a day number.  The formula is linear
in `d`, which is exactly the platform's day-of-month rollover: a `d`
past the end of the month rolls into the following month. -/
def daysFromCivil (y m d : Int) : Int :=
  let y1 := if m ≤ 2 then y - 1 else y
  let era := y1 / 400
  let yoe := y1 - era * 400
  let mp := if 2 < m then m - 3 else m + 9
  let doy := (153 * mp + 2) / 5 + d - 1
  let doe := yoe * 365 + yoe / 4 - yoe / 100 + doy
  era * 146097 + doe - 719468

/-- `end.setDate(end.getDate() + k)` on a date at `ms`, keeping the
time of day. -/
def jsAddDays (ms k : Int) : Int :=
  let tod := ms % dayMs
  match civilFromDays (ms / dayMs) with
  | (y, m, d) => daysFromCivil y m (d + k) * dayMs + tod

/-- `end.setMonth(end.getMonth() + p)` on a date at `ms`, keeping the
time of day; day-of-month overflow rolls over. -/
def jsAddMonths (ms p : Int) : Int :=
  let tod := ms % dayMs
  match civilFromDays (ms / dayMs) with
  | (y, m, d) =>
    let t := y * 12 + (m - 1) + p
    daysFromCivil (t / 12) (t % 12 + 1) d * dayMs + tod

/-- `computeEndDate` (dashboard.tsx:121-128): resolve the start via
`toMillis`; `if (!startMs || !period || period <= 0) return null`;
otherwise add `period * 7` days (weekly) or `period` months
(otherwise), returning the end instant in milliseconds. -/
def computeEndDate (dateParse : String → Option Int) (ts : JSValue)
    (period : Option Int) (freq : Option Freq) : Option Int :=
  match toMillis dateParse ts, period with
  | some q, some p =>
      if q = 0 ∨ p ≤ 0 then none
      else
        match freq with
        | some .weekly => some (jsAddDays (ratTrunc q) (p * 7))
        | _ => some (jsAddMonths (ratTrunc q) p)
  | _, _ => none

/-- Claim C7: `toMillis` is total — for every input it yields an
`Option` result rather than raising: any exception of the `try` body is
caught and converted to `null`, and every value of unrecognized shape
resolves to `null`. -/
theorem toMillis_total_never_throws (dateParse : String → Option Int)
    (v : JSValue) :
    (toMillis dateParse v = none ∨ ∃ q, toMillis dateParse v = some q) ∧
    (∀ e, toMillisTry dateParse v = .error e → toMillis dateParse v = none) ∧
    (recognizedShape v = false → toMillis dateParse v = none) := by
  refine ⟨?_, ?_, ?_⟩
  · cases h : toMillis dateParse v with
    | none => exact Or.inl rfl
    | some q => exact Or.inr ⟨q, rfl⟩
  · intro e h
    unfold toMillis
    rw [h]
  · intro h
    cases v <;> simp_all [toMillis, toMillisTry, recognizedShape, jsFalsy]

/-- Witness for C7: a throwing `toDate()` object (even one with a
`seconds` field) and a plain unrecognized object both resolve to
`null`. -/
theorem toMillis_total_never_throws_witness :
    toMillis dateParse0 (JSValue.tsObj (Except.error ()) (some 5)) = none ∧
    toMillis dateParse0 JSValue.objOther = none :=
  ⟨(toMillis_total_never_throws dateParse0
      (JSValue.tsObj (Except.error ()) (some 5))).2.1 () rfl,
   (toMillis_total_never_throws dateParse0 JSValue.objOther).2.2 rfl⟩

/-- Counterexample to claim C8 as stated: `0` is a finite number, yet
`toMillis(0)` is `null` (the initial falsy guard `if (!v) return null`
catches it), not `0`. -/
theorem toMillis_zero_counterexample :
    toMillis dateParse0 (JSValue.num 0) ≠ some 0 := by decide

/-- Claim C8 (amended): `toMillis` resolves by the source's ordered
attempts — a native date yields its epoch milliseconds, a finite
*nonzero* number yields itself (`0`, being falsy, yields `null`), a
nonempty string goes through `Date.parse`, a `toDate()` object yields
that date's milliseconds, a `seconds` object yields
`round(seconds*1000)`, and non-finite numbers yield `null`. -/
theorem toMillis_resolution (dateParse : String → Option Int) (q : ℚ)
    (ms : Int) (s : String) (sec : Option ℚ) (secs : ℚ) :
    (q ≠ 0 → toMillis dateParse (JSValue.num q) = some q) ∧
    toMillis dateParse (JSValue.num 0) = none ∧
    toMillis dateParse (JSValue.date ms) = some (ms : ℚ) ∧
    (s ≠ "" → toMillis dateParse (JSValue.str s) =
      (dateParse s).map (fun n => (n : ℚ))) ∧
    toMillis dateParse (JSValue.tsObj (.ok ms) sec) = some (ms : ℚ) ∧
    toMillis dateParse (JSValue.secObj secs) =
      some ((jsRound (secs * 1000) : ℤ) : ℚ) ∧
    toMillis dateParse JSValue.posInf = none ∧
    toMillis dateParse JSValue.nan = none ∧
    toMillis dateParse JSValue.undef = none ∧
    toMillis dateParse JSValue.nullv = none := by
  refine ⟨fun h => ?_, ?_, ?_, fun h => ?_, ?_, ?_, ?_, ?_, ?_, ?_⟩ <;>
    simp [toMillis, toMillisTry, jsFalsy, *]

/-- Witness for C8 (amended) at concrete inputs: `5` resolves to itself
and a date at `7` ms resolves to `7`. -/
theorem toMillis_resolution_witness :
    toMillis dateParse0 (JSValue.num 5) = some 5 ∧
    toMillis dateParse0 (JSValue.date 7) = some 7 := by
  have h := toMillis_resolution dateParse0 5 7 "x" none 1
  exact ⟨h.1 (by norm_num), h.2.2.1⟩

/-- Counterexample to claim C9 as stated: the empty string is neither
missing nor undefined, yet `normalizeStatus("")` is `"pending"`, not
the unchanged lower-cased input `""` (the `s || "pending"` default
catches every falsy string). -/
theorem normalizeStatus_empty_counterexample :
    normalizeStatus (some "") ≠ "" := by decide

/-- Claim C9 (amended): `normalizeStatus` maps missing *and empty*
input to `"pending"`, collapses finished/complete/completed
(case-insensitively) to `"closed"`, and returns every other nonempty
string lower-cased and otherwise unchanged. -/
theorem normalizeStatus_spec (t : String) :
    normalizeStatus none = "pending" ∧
    normalizeStatus (some "") = "pending" ∧
    (t ≠ "" → normalizeStatus (some t) =
      (if jsToLower t = "finished" ∨ jsToLower t = "complete" ∨
          jsToLower t = "completed" then "closed" else jsToLower t)) := by
  refine ⟨by decide, by decide, ?_⟩
  intro ht
  simp only [normalizeStatus, jsOrPending, beq_iff_eq, if_neg ht,
    Bool.or_eq_true, or_assoc]

/-- Witness for C9 (amended): `"FINISHED"` collapses to `"closed"`. -/
theorem normalizeStatus_spec_witness :
    normalizeStatus (some "FINISHED") = "closed" := by
  have h := (normalizeStatus_spec "FINISHED").2.2 (by decide)
  rw [h]
  decide

theorem daysFromCivil_add_right (y m d k : Int) :
    daysFromCivil y m (d + k) = daysFromCivil y m d + k := by
  unfold daysFromCivil
  dsimp only
  split <;> split <;> omega

/-- Counterexample to claim C6 as stated: a start instant at the epoch
itself resolves to `0` milliseconds — the start *is* resolvable and the
period is positive — yet `computeEndDate` returns `null`, because the
guard `!startMs` treats the falsy `0` like an unresolvable start. -/
theorem computeEndDate_epoch_counterexample :
    toMillis dateParse0 (JSValue.date 0) = some 0 ∧ (0 : Int) < 1 ∧
    computeEndDate dateParse0 (JSValue.date 0) (some 1)
      (some Freq.monthly) = none := by decide

/-- Claim C6 (amended): `computeEndDate` returns `null` exactly when
the start is unresolvable, resolves to the falsy value `0`, or the
period is absent or `≤ 0`; otherwise it adds `period * 7` days
(weekly) or `period` months with day-of-month rollover (otherwise) to
the truncated start milliseconds.  It is a pure function, so identical
inputs yield identical millisecond values, and adding days moves the
result by exactly `k` whole days. -/
theorem computeEndDate_spec (dateParse : String → Option Int)
    (ts : JSValue) (period : Option Int) (freq : Option Freq)
    (ms k : Int) :
    (computeEndDate dateParse ts period freq = none ↔
      toMillis dateParse ts = none ∨ toMillis dateParse ts = some 0 ∨
        period = none ∨ ∃ p, period = some p ∧ p ≤ 0) ∧
    (∀ (q : ℚ) (p : Int), toMillis dateParse ts = some q → q ≠ 0 →
      period = some p → 0 < p →
      computeEndDate dateParse ts period freq =
        some (if freq = some Freq.weekly then
                jsAddDays (ratTrunc q) (p * 7)
              else jsAddMonths (ratTrunc q) p)) ∧
    computeEndDate dateParse ts period freq =
      computeEndDate dateParse ts period freq ∧
    jsAddDays ms k = jsAddDays ms 0 + k * dayMs := by
  refine ⟨?_, ?_, rfl, ?_⟩
  · rcases h1 : toMillis dateParse ts with _ | q
    · simp [computeEndDate, h1]
    · rcases period with _ | p
      · simp [computeEndDate, h1]
      · by_cases hq : q = 0
        · subst hq
          simp [computeEndDate, h1]
        · by_cases hp : p ≤ 0
          · simp [computeEndDate, h1, hq, hp]
          · rcases freq with _ | f
            · simp [computeEndDate, h1, hq, hp]
            · cases f <;> simp [computeEndDate, h1, hq, hp]
  · intro q p h1 hq h2 hp
    subst h2
    have hp2 : ¬p ≤ 0 := by omega
    rcases freq with _ | f
    · simp [computeEndDate, h1, hq, hp2]
    · cases f <;> simp [computeEndDate, h1, hq, hp2]
  · unfold jsAddDays
    rcases h : civilFromDays (ms / dayMs) with ⟨y, m, d⟩
    simp only [h, daysFromCivil_add_right y m d k, add_zero]
    ring

/-- Witness for C6 (amended): one weekly period from one day past the
epoch lands seven days later. -/
theorem computeEndDate_spec_witness :
    computeEndDate dateParse0 (JSValue.date dayMs) (some 1)
      (some Freq.weekly) = some (jsAddDays (ratTrunc (dayMs : ℚ)) 7) := by
  have h := (computeEndDate_spec dateParse0 (JSValue.date dayMs) (some 1)
    (some Freq.weekly) 0 0).2.1 (dayMs : ℚ) 1 (by decide) (by decide) rfl
    (by decide)
  simpa using h

/-- JS `Math.ceil(a / b)` for integer `a` and positive integer `b`. -/
def jsCeilDiv (a b : Int) : Int := -((-a) / b)

/-- The default configured daily late-fee rate
(`NEXT_PUBLIC_LATE_FEE_DAILY || 0.001`). -/
def lateFeeDailyDefault : ℚ := 1 / 1000

/-- `overdueDays` (dashboard.tsx:1570-1573, part_009:1194):
`endMs && endMs < now ? Math.ceil((now - endMs) / 86_400_000) : 0`.
The `endMs &&` guard makes a zero (falsy) end instant yield `0`. -/
def overdueDaysOf (now : Int) (endMs : Option Int) : Int :=
  match endMs with
  | some e => if e ≠ 0 ∧ e < now then jsCeilDiv (now - e) dayMs else 0
  | none => 0

/-- `lateAmt` (dashboard.tsx:1575-1578, part_009:1195-1196):
`overdueDays > 0 ? (currentBalance || 0) * rate * overdueDays : 0`. -/
def lateAmtOf (bal rate : ℚ) (days : Int) : ℚ :=
  if 0 < days then bal * rate * (days : ℚ) else 0

/-- End-instant resolution feeding the late-fee derivation
(dashboard.tsx:1566-1569): an explicit (truthy) `endDate` is resolved
via `new Date(toMillis(endDate) || 0)`, otherwise the end is
`computeEndDate(timestamp, loanPeriod, paymentFrequency)`. -/
def derivedEndMs (dateParse : String → Option Int) (endDate ts : JSValue)
    (period : Option Int) (freq : Option Freq) : Option Int :=
  if jsFalsy endDate then computeEndDate dateParse ts period freq
  else some (ratTrunc ((toMillis dateParse endDate).getD 0))

/-- Counterexample to claim C2 as stated: an end instant at the epoch
(`endMs = 0`) is resolvable and strictly in the past of
`now = 86400000`, so the claim demands
`overdueDays = ceil(86400000/86400000) = 1`; the code returns `0`
because the `endMs &&` guard treats the falsy `0` as absent. -/
theorem lateFee_epoch_counterexample :
    overdueDaysOf 86400000 (some 0) = 0 ∧
    jsCeilDiv (86400000 - 0) dayMs = 1 := by decide

/-- Claim C2 (amended): with `overdueDays = ceil((now-endMs)/86400000)`
when the end instant is resolvable to a *nonzero* millisecond value
strictly in the past and `0` otherwise, the late fee is
`currentBalance * rate * overdueDays` when `overdueDays > 0` and `0`
whenever `overdueDays ≤ 0`; the fee is `0` when the end instant is
unresolvable, and for fixed balance and rate it grows by exactly
`balance * rate` per overdue day. -/
theorem lateFee_spec (now e : Int) (bal rate : ℚ) (d : Int) :
    overdueDaysOf now none = 0 ∧
    (e ≠ 0 → e < now →
      overdueDaysOf now (some e) = jsCeilDiv (now - e) dayMs ∧
      0 < overdueDaysOf now (some e)) ∧
    (now ≤ e → overdueDaysOf now (some e) = 0) ∧
    (d ≤ 0 → lateAmtOf bal rate d = 0) ∧
    (0 < d → lateAmtOf bal rate d = bal * rate * (d : ℚ)) ∧
    (0 < d → lateAmtOf bal rate (d + 1) - lateAmtOf bal rate d =
      bal * rate) ∧
    (∀ (dateParse : String → Option Int) (endDate ts : JSValue)
        (period : Option Int) (freq : Option Freq),
      toMillis dateParse endDate = none → jsFalsy endDate = false →
      lateAmtOf bal rate
        (overdueDaysOf now
          (derivedEndMs dateParse endDate ts period freq)) = 0) := by
  refine ⟨rfl, ?_, ?_, ?_, ?_, ?_, ?_⟩
  · intro he hlt
    have hpos : 0 < jsCeilDiv (now - e) dayMs := by
      unfold jsCeilDiv dayMs
      omega
    exact ⟨by simp [overdueDaysOf, he, hlt], by
      simpa [overdueDaysOf, he, hlt] using hpos⟩
  · intro hge
    have : ¬(e ≠ 0 ∧ e < now) := by omega
    simp [overdueDaysOf, this]
  · intro hd
    have : ¬(0 : Int) < d := by omega
    simp [lateAmtOf, this]
  · intro hd
    simp [lateAmtOf, hd]
  · intro hd
    have hd1 : (0 : Int) < d + 1 := by omega
    simp only [lateAmtOf, if_pos hd, if_pos hd1]
    push_cast
    ring
  · intro dateParse endDate ts period freq hnone hfalsy
    have he : derivedEndMs dateParse endDate ts period freq = some 0 := by
      simp [derivedEndMs, hfalsy, hnone, ratTrunc]
    rw [he]
    simp [overdueDaysOf, lateAmtOf]

/-- Witness for C2 (amended): an end one day before `now = 2` days
yields one overdue day, and the fee at one overdue day on a balance of
1000 at the default rate is `1000 * (1/1000) * 1`. -/
theorem lateFee_spec_witness :
    overdueDaysOf (2 * dayMs) (some dayMs) =
      jsCeilDiv (2 * dayMs - dayMs) dayMs ∧
    lateAmtOf 1000 lateFeeDailyDefault 1 =
      1000 * lateFeeDailyDefault * ((1 : Int) : ℚ) :=
  ⟨((lateFee_spec (2 * dayMs) dayMs 1000 lateFeeDailyDefault 1).2.1
      (by decide) (by decide)).1,
   (lateFee_spec (2 * dayMs) dayMs 1000 lateFeeDailyDefault 1).2.2.2.2.1
      (by decide)⟩

/-- A JS `number`: finite (rational), NaN, or one of the infinities. -/
inductive JSNum where
  | fin (q : ℚ)
  | nan
  | posInf
  | negInf
deriving DecidableEq

/-- JS `isFinite`. -/
def JSNum.isFinite : JSNum → Bool
  | .fin _ => true
  | _ => false

/-- JS falsiness of a number (`0` and `NaN`). -/
def JSNum.falsy : JSNum → Bool
  | .fin q => q == 0
  | .nan => true
  | _ => false

/-- JS `x <= 0` (false for NaN and positive infinity). -/
def JSNum.leZero : JSNum → Bool
  | .fin q => decide (q ≤ 0)
  | .negInf => true
  | _ => false

/-- JS `x || 0`. -/
def JSNum.orZero (x : JSNum) : JSNum := if x.falsy then .fin 0 else x

/-- JS subtraction on numbers. -/
def JSNum.sub : JSNum → JSNum → JSNum
  | .fin p, .fin q => .fin (p - q)
  | .nan, _ => .nan
  | _, .nan => .nan
  | .posInf, .posInf => .nan
  | .negInf, .negInf => .nan
  | .posInf, _ => .posInf
  | .negInf, _ => .negInf
  | .fin _, .posInf => .negInf
  | .fin _, .negInf => .posInf

/-- JS `Math.max(0, x)`. -/
def JSNum.maxZero : JSNum → JSNum
  | .fin q => .fin (max 0 q)
  | .nan => .nan
  | .posInf => .posInf
  | .negInf => .fin 0

/-- The slice of a loan document touched by `addPayment`. -/
structure LoanPayState where
  currentBalance : JSNum
  status : String
deriving DecidableEq

/-- `addPayment` (dashboard.tsx:1733-1758): no write when the amount is
falsy or `<= 0`; otherwise the stored balance becomes
`Math.max(0, (currentBalance || 0) - amount)` and the status is forced
to `"closed"` exactly when the new balance is `<= 0`.  `none` models
"no write performed". -/
def addPayment (amount : JSNum) (loan : LoanPayState) :
    Option LoanPayState :=
  if amount.falsy || amount.leZero then none
  else
    let nextBalance := (loan.currentBalance.orZero.sub amount).maxZero
    some { currentBalance := nextBalance,
           status := if nextBalance.leZero then "closed" else loan.status }

/-- `RecordPaymentButton.handleSave` (dashboard.tsx:1948-1955): rejects
a non-finite or non-positive amount before calling `addPayment`. -/
def handleSave (n : JSNum) (loan : LoanPayState) : Option LoanPayState :=
  if !n.isFinite || n.leZero then none else addPayment n loan

/-- Claim C10: a payment of finite amount `a > 0` on balance `b` stores
`max(0, b - a)` (never negative) and forces status `"closed"` exactly
when the new balance is `≤ 0` (i.e. `b ≤ a`), leaving it unchanged
otherwise; a non-positive or non-finite amount performs no write. -/
theorem addPayment_spec (n : JSNum) (loan : LoanPayState) :
    ((n.isFinite = false ∨ n.leZero = true) → handleSave n loan = none) ∧
    ((n.falsy = true ∨ n.leZero = true) → addPayment n loan = none) ∧
    (∀ (a b : ℚ), n = .fin a → 0 < a → loan.currentBalance = .fin b →
      handleSave n loan =
        some { currentBalance := .fin (max 0 (b - a)),
               status := if b ≤ a then "closed" else loan.status } ∧
      (0 : ℚ) ≤ max 0 (b - a)) := by
  refine ⟨?_, ?_, ?_⟩
  · intro h
    rcases h with h | h <;> simp [handleSave, h]
  · intro h
    rcases h with h | h <;> simp [addPayment, h]
  · intro a b hn ha hb
    subst hn
    refine ⟨?_, le_max_left 0 (b - a)⟩
    have hfin : (JSNum.fin a).isFinite = true := rfl
    have hle : (JSNum.fin a).leZero = false := by
      simp [JSNum.leZero, not_le.mpr ha]
    have hfalsy : (JSNum.fin a).falsy = false := by
      simp [JSNum.falsy]
      exact ne_of_gt ha
    have horz : loan.currentBalance.orZero = .fin b := by
      rcases eq_or_ne b 0 with hb0 | hb0
      · simp [JSNum.orZero, JSNum.falsy, hb, hb0]
      · simp [JSNum.orZero, JSNum.falsy, hb, hb0]
    have hnext :
        (loan.currentBalance.orZero.sub (JSNum.fin a)).maxZero =
          .fin (max 0 (b - a)) := by
      rw [horz]
      rfl
    have hclosed : (JSNum.fin (max 0 (b - a))).leZero = decide (b ≤ a) := by
      simp [JSNum.leZero]
    simp [handleSave, addPayment, hfin, hle, hfalsy, hnext, hclosed]

/-- Witness for C10: a payment of 40 on a balance of 100 leaves 60 and
an open status; the balance stays nonnegative. -/
theorem addPayment_spec_witness :
    handleSave (JSNum.fin 40) ⟨JSNum.fin 100, "active"⟩ =
      some { currentBalance := JSNum.fin (max 0 ((100 : ℚ) - 40)),
             status := if (100 : ℚ) ≤ 40 then "closed" else "active" } ∧
    (0 : ℚ) ≤ max 0 ((100 : ℚ) - 40) :=
  (addPayment_spec (JSNum.fin 40) ⟨JSNum.fin 100, "active"⟩).2.2 40 100
    rfl (by norm_num) rfl

/-- A collateral descriptor (only its presence matters to the
classifier; label and value are carried for shape). -/
structure Collateral where
  label : Option String
  estValue : Option ℚ
deriving DecidableEq

/-- A mapped loan row as consumed by the derived slices
(dashboard.tsx:375-422): normalized status, numeric balance, resolved
end instant (`endDate : Date | null`, carried as milliseconds), and
the collateral array. -/
structure LoanRow where
  id : String
  status : String
  currentBalance : ℚ
  endMs : Option Int
  collateralItems : List Collateral
deriving DecidableEq

/-- The Outstanding filter (dashboard.tsx:377):
`(status === "approved" || status === "active") && currentBalance > 0`. -/
def isOutstandingRow (r : LoanRow) : Bool :=
  (r.status == "approved" || r.status == "active") &&
    decide (0 < r.currentBalance)

/-- Comparator of the Outstanding sort: balance descending. -/
def balDesc (a b : LoanRow) : Bool :=
  decide (b.currentBalance ≤ a.currentBalance)

/-- `outstanding` (dashboard.tsx:376-380): filter then stable sort by
balance descending (uncapped). -/
def outstanding (loans : List LoanRow) : List LoanRow :=
  (loans.filter isOutstandingRow).mergeSort balDesc

/-- `outstandingTop` (dashboard.tsx:381): display slice of six. -/
def outstandingTop (loans : List LoanRow) : List LoanRow :=
  (outstanding loans).take 6

/-- Sort key used by the deadline and overdue sorts:
`new Date(r.endDate || 0).getTime()`. -/
def endKey (r : LoanRow) : Int := r.endMs.getD 0

/-- Comparator of the deadline sort: end instant ascending. -/
def endAsc (a b : LoanRow) : Bool := decide (endKey a ≤ endKey b)

/-- `end && end >= now && end <= soon` with `soon = now + 14 days`
(dashboard.tsx:388-389). -/
def inDeadlineWindow (now : Int) (r : LoanRow) : Bool :=
  match r.endMs with
  | some e => decide (now ≤ e) && decide (e ≤ now + 14 * dayMs)
  | none => false

/-- `deadlinesUpcoming` (dashboard.tsx:385-394): Outstanding-eligible
loans whose end instant falls within the next 14 days, end ascending,
capped at 8. -/
def deadlinesUpcoming (loans : List LoanRow) (now : Int) : List LoanRow :=
  ((loans.filter
      (fun r => isOutstandingRow r && inDeadlineWindow now r)).mergeSort
    endAsc).take 8

/-- The Finished filter (dashboard.tsx:408):
`currentBalance <= 0 || status === "closed" || status === "finished"`. -/
def isFinishedRow (r : LoanRow) : Bool :=
  decide (r.currentBalance ≤ 0) || r.status == "closed" ||
    r.status == "finished"

/-- `finished` (dashboard.tsx:407-410): the Finished filter capped at 8
— note the cap is applied *inside* the memo, before any total is
taken. -/
def finished (loans : List LoanRow) : List LoanRow :=
  (loans.filter isFinishedRow).take 8

/-- The overdue filter of the totals (dashboard.tsx:419):
`end && end < now && (currentBalance ?? 0) > 0` — `end` here is a
(always-truthy) `Date` object, so an epoch end instant does count. -/
def isOverdueRow (now : Int) (r : LoanRow) : Bool :=
  (match r.endMs with
   | some e => decide (e < now)
   | none => false) && decide (0 < r.currentBalance)

/-- The aggregate totals object (dashboard.tsx:413-422). -/
structure Totals where
  outstandingCount : Nat
  outstandingBalanceSum : ℚ
  collateralCount : Nat
  finishedCount : Nat
  overdueCount : Nat
deriving DecidableEq

/-- `totals` (dashboard.tsx:413-422): count and balance sum of the
(uncapped) Outstanding list, collateral items across all loans, length
of the (capped) `finished` list, and the uncapped overdue count. -/
def totalsOf (loans : List LoanRow) (now : Int) : Totals :=
  { outstandingCount := (outstanding loans).length
    outstandingBalanceSum :=
      (outstanding loans).foldl (fun s r => s + r.currentBalance) 0
    collateralCount :=
      loans.foldl (fun s r => s + r.collateralItems.length) 0
    finishedCount := (finished loans).length
    overdueCount := (loans.filter (isOverdueRow now)).length }

theorem foldl_add_eq_sum_map (loans : List LoanRow) (init : ℚ) :
    loans.foldl (fun s r => s + r.currentBalance) init =
      init + (loans.map (fun r => r.currentBalance)).sum := by
  induction loans generalizing init with
  | nil => simp
  | cons r rest ih => simp [List.foldl_cons, ih, add_assoc]

theorem foldl_add_eq_sum_map_nat (loans : List LoanRow) (init : ℕ) :
    loans.foldl (fun s r => s + r.collateralItems.length) init =
      init + (loans.map (fun r => r.collateralItems.length)).sum := by
  induction loans generalizing init with
  | nil => simp
  | cons r rest ih => simp [List.foldl_cons, ih, Nat.add_assoc]

/-- Claim C3: Outstanding contains exactly the loans with normalized
status approved/active and strictly positive balance (as a multiset),
sorted by balance descending; in particular no loan with
`currentBalance ≤ 0` appears, whatever its status. -/
theorem outstanding_spec (loans : List LoanRow) :
    (outstanding loans).Perm (loans.filter isOutstandingRow) ∧
    (outstanding loans).Pairwise
      (fun a b => b.currentBalance ≤ a.currentBalance) ∧
    (∀ r ∈ outstanding loans,
      (r.status = "approved" ∨ r.status = "active") ∧
        0 < r.currentBalance) := by
  refine ⟨List.mergeSort_perm _ _, ?_, ?_⟩
  · have htrans : ∀ a b c : LoanRow, balDesc a b = true →
        balDesc b c = true → balDesc a c = true := by
      intro a b c hab hbc
      simp only [balDesc, decide_eq_true_eq] at *
      exact le_trans hbc hab
    have htotal : ∀ a b : LoanRow, (balDesc a b || balDesc b a) = true := by
      intro a b
      simp only [balDesc, Bool.or_eq_true, decide_eq_true_eq]
      exact le_total _ _
    exact (List.sorted_mergeSort htrans htotal
      (loans.filter isOutstandingRow)).imp
      (fun h => by simpa [balDesc] using h)
  · intro r hr
    have hmem : r ∈ loans.filter isOutstandingRow :=
      (List.mergeSort_perm (loans.filter isOutstandingRow)
        balDesc).mem_iff.mp hr
    have hp := (List.mem_filter.mp hmem).2
    simp only [isOutstandingRow, Bool.and_eq_true, Bool.or_eq_true,
      beq_iff_eq, decide_eq_true_eq] at hp
    exact hp

/-- Witness for C3: a concrete member of a concrete Outstanding list
has an eligible status and a positive balance. -/
theorem outstanding_spec_witness :
    ((LoanRow.mk "b" "active" 100 (some 86400000) []).status = "approved" ∨
      (LoanRow.mk "b" "active" 100 (some 86400000) []).status = "active") ∧
    0 < (LoanRow.mk "b" "active" 100 (some 86400000) []).currentBalance :=
  (outstanding_spec [LoanRow.mk "a" "approved" 50 none [],
      LoanRow.mk "b" "active" 100 (some 86400000) []]).2.2
    (LoanRow.mk "b" "active" 100 (some 86400000) [])
    (by
      unfold outstanding
      exact (List.mergeSort_perm _ balDesc).mem_iff.mpr (by decide))

/-- Claim C4: every loan in the Deadlines-upcoming view is
Outstanding-eligible and has a resolvable end instant within the
closed window `[now, now + 14 days]`; the view is sorted by end
instant ascending and has at most 8 entries. -/
theorem deadlinesUpcoming_spec (loans : List LoanRow) (now : Int) :
    (∀ r ∈ deadlinesUpcoming loans now,
      ((r.status = "approved" ∨ r.status = "active") ∧
        0 < r.currentBalance) ∧
      ∃ e, r.endMs = some e ∧ now ≤ e ∧ e ≤ now + 14 * dayMs) ∧
    (deadlinesUpcoming loans now).Pairwise
      (fun a b => endKey a ≤ endKey b) ∧
    (deadlinesUpcoming loans now).length ≤ 8 := by
  refine ⟨?_, ?_, ?_⟩
  · intro r hr
    have hsort : r ∈ (loans.filter
        (fun r => isOutstandingRow r && inDeadlineWindow now r)).mergeSort
          endAsc :=
      (List.take_sublist 8 _).mem hr
    have hmem : r ∈ loans.filter
        (fun r => isOutstandingRow r && inDeadlineWindow now r) :=
      (List.mergeSort_perm _ endAsc).mem_iff.mp hsort
    have hp := (List.mem_filter.mp hmem).2
    simp only [Bool.and_eq_true] at hp
    obtain ⟨ho, hw⟩ := hp
    constructor
    · simpa only [isOutstandingRow, Bool.and_eq_true, Bool.or_eq_true,
        beq_iff_eq, decide_eq_true_eq] using ho
    · rcases he : r.endMs with _ | e
      · rw [inDeadlineWindow, he] at hw
        exact absurd hw (by simp)
      · rw [inDeadlineWindow, he] at hw
        simp only [Bool.and_eq_true, decide_eq_true_eq] at hw
        exact ⟨e, rfl, hw.1, hw.2⟩
  · have htrans : ∀ a b c : LoanRow, endAsc a b = true →
        endAsc b c = true → endAsc a c = true := by
      intro a b c hab hbc
      simp only [endAsc, decide_eq_true_eq] at *
      exact le_trans hab hbc
    have htotal : ∀ a b : LoanRow, (endAsc a b || endAsc b a) = true := by
      intro a b
      simp only [endAsc, Bool.or_eq_true, decide_eq_true_eq]
      exact le_total _ _
    exact ((List.sorted_mergeSort htrans htotal
        (loans.filter
          (fun r => isOutstandingRow r && inDeadlineWindow now r))).imp
      (fun h => by simpa [endAsc] using h)).sublist
      (List.take_sublist 8 _)
  · calc (deadlinesUpcoming loans now).length
        = min 8 ((loans.filter
            (fun r => isOutstandingRow r && inDeadlineWindow now r)).mergeSort
              endAsc).length := List.length_take 8 _
      _ ≤ 8 := min_le_left _ _

/-- Witness for C4: a concrete loan ending one day after `now = 0`
appears in the view and satisfies eligibility and the window bound. -/
theorem deadlinesUpcoming_spec_witness :
    (((LoanRow.mk "b" "active" 100 (some 86400000) []).status = "approved" ∨
       (LoanRow.mk "b" "active" 100 (some 86400000) []).status = "active") ∧
      0 < (LoanRow.mk "b" "active" 100 (some 86400000) []).currentBalance) ∧
    ∃ e, (LoanRow.mk "b" "active" 100 (some 86400000) []).endMs = some e ∧
      (0 : Int) ≤ e ∧ e ≤ 0 + 14 * dayMs :=
  (deadlinesUpcoming_spec [LoanRow.mk "b" "active" 100 (some 86400000) []]
      0).1 (LoanRow.mk "b" "active" 100 (some 86400000) [])
    (by
      unfold deadlinesUpcoming
      rw [show [LoanRow.mk "b" "active" 100 (some 86400000) []].filter
          (fun r => isOutstandingRow r && inDeadlineWindow 0 r) =
          [LoanRow.mk "b" "active" 100 (some 86400000) []] from by decide,
        List.mergeSort_singleton]
      decide)

/-- A loan row with zero balance, used by concrete counterexamples. -/
def zeroLoan (n : Nat) : LoanRow :=
  { id := toString n, status := "approved", currentBalance := 0,
    endMs := none, collateralItems := [] }

/-- Nine zero-balance loans: all satisfy the Finished filter, but the
`finished` slice keeps only the first eight. -/
def nineZeroLoans : List LoanRow := (List.range 9).map zeroLoan

/-- Counterexample to claim C1 as stated: with nine Finished loans,
`finishedCount` is `8` — the length of the *capped* display slice —
while the count over all loans satisfying the Finished filter is
`9`. -/
theorem totals_finishedCount_counterexample :
    (totalsOf nineZeroLoans 0).finishedCount = 8 ∧
    (nineZeroLoans.filter isFinishedRow).length = 9 := by decide

/-- Claim C1 (amended): the totals are computed over the unbounded
Outstanding set (count and balance sum), all loans (collateral count
and overdue count, the latter regardless of collateral and status),
but `finishedCount` is the length of the *capped* Finished slice,
i.e. `min 8 (number of Finished loans)`. -/
theorem totals_spec (loans : List LoanRow) (now : Int) :
    (totalsOf loans now).outstandingCount =
      (loans.filter isOutstandingRow).length ∧
    (totalsOf loans now).outstandingBalanceSum =
      ((loans.filter isOutstandingRow).map
        (fun r => r.currentBalance)).sum ∧
    (totalsOf loans now).collateralCount =
      (loans.map (fun r => r.collateralItems.length)).sum ∧
    (totalsOf loans now).finishedCount =
      min 8 (loans.filter isFinishedRow).length ∧
    (totalsOf loans now).overdueCount =
      (loans.filter (isOverdueRow now)).length := by
  refine ⟨?_, ?_, ?_, ?_, rfl⟩
  · exact (List.mergeSort_perm _ _).length_eq
  · show (outstanding loans).foldl (fun s r => s + r.currentBalance) 0 = _
    rw [foldl_add_eq_sum_map, zero_add]
    exact ((List.mergeSort_perm _ balDesc).map
      (fun r => r.currentBalance)).sum_eq
  · show loans.foldl (fun s r => s + r.collateralItems.length) 0 = _
    rw [foldl_add_eq_sum_map_nat, Nat.zero_add]
  · exact List.length_take 8 _

/-- Counterexample to claim C5 as stated: the ninth zero-balance loan
satisfies the Finished filter but is dropped from the capped Finished
view. -/
theorem finished_cap_counterexample :
    zeroLoan 8 ∈ nineZeroLoans ∧ (zeroLoan 8).currentBalance ≤ 0 ∧
    zeroLoan 8 ∉ finished nineZeroLoans := by decide

/-- Claim C5 (amended): a loan with `currentBalance ≤ 0` always
satisfies the Finished classification filter (is in the uncapped
Finished set — it is displayed when among the first eight) and never
appears in Outstanding, regardless of its stored status. -/
theorem finished_classification (loans : List LoanRow) (r : LoanRow) :
    r ∈ loans → r.currentBalance ≤ 0 →
    isFinishedRow r = true ∧ r ∈ loans.filter isFinishedRow ∧
      r ∉ outstanding loans := by
  intro hmem hbal
  have hfin : isFinishedRow r = true := by
    simp [isFinishedRow, hbal]
  refine ⟨hfin, List.mem_filter.mpr ⟨hmem, hfin⟩, ?_⟩
  intro hout
  have h := ((outstanding_spec loans).2.2 r hout).2
  exact absurd h (not_lt.mpr hbal)

/-- Witness for C5 (amended): a concrete zero-balance approved loan is
Finished and not Outstanding. -/
theorem finished_classification_witness :
    isFinishedRow (zeroLoan 0) = true ∧
    zeroLoan 0 ∈ [zeroLoan 0].filter isFinishedRow ∧
    zeroLoan 0 ∉ outstanding [zeroLoan 0] :=
  finished_classification [zeroLoan 0] (zeroLoan 0) (by decide) (by decide)

end Essa
